import Mathlib

/-!
# Verification of `check_chats.py` (NeuroTools)

Shallow embedding of the windowed Twitch-chat retrieval tool.  Timestamps are
modelled as integers (seconds); the parsed JSON response of one comment page is
a `RawPage`; the post-response logic of `get_chat_by_offset` /
`get_chat_by_cursor` is embedded as a pure function returning
`Except PyError FetchResult`, where `PyError` stands for the Python exceptions
the script can raise; the retrieval loops `get_part_chat` / `get_all_chat` are
embedded as fuel-indexed recursions over an abstract feed
`Nat → Option String → Except PyError FetchResult` (fetch index and cursor;
cursor `none` is the initial fetch-by-offset call).
-/

set_option autoImplicit false
set_option linter.unusedVariables false

/-- Python exception classes relevant to the script: `httpx.TimeoutException`
(the only retried class), `IndexError` (from `[-1]` on an empty list), and a
catch-all for any other exception (KeyError/TypeError/network errors). -/
inductive PyError where
  | timeoutException
  | indexError
  | otherError
deriving DecidableEq, Repr

/-- The `commenter` object of a raw comment node (null when the account is
deleted or banned). -/
structure Commenter where
  id : String
  login : String
  displayName : String
deriving DecidableEq, Repr

/-- The `node` of a raw comment edge.  `createdAt` is the absolute timestamp in
seconds; `message.fragments` is kept as the list of fragment texts. -/
structure RawNode where
  id : String
  commenter : Option Commenter
  fragments : List String
  createdAt : Int
  contentOffsetSeconds : Int
deriving DecidableEq, Repr

/-- One element of `resp[0]["data"]["video"]["comments"]["edges"]`. -/
structure RawEdge where
  cursor : String
  node : RawNode
deriving DecidableEq, Repr

/-- The comment-page part of one parsed JSON response. -/
structure RawPage where
  edges : List RawEdge
  hasNextPage : Bool
deriving DecidableEq, Repr

/-- `calculate_time_difference`: seconds between two absolute timestamps. -/
def calculate_time_difference (start_time current_time : Int) : Int :=
  current_time - start_time

/-- `SimpleChat` (the CommentRecord of the spec). -/
structure SimpleChat where
  id : String
  cursor : String
  login : String
  displayName : String
  user_id : String
  text : String
  offset : Int
deriving DecidableEq, Repr

/-- `SimpleChat.from_raw_data`.  In Python it dereferences
`raw_data["node"]["commenter"]` and so raises on a null commenter; here that
partiality is made explicit with `Option` (`none` exactly when the commenter is
null).  The call sites only apply it to entries whose commenter is non-null. -/
def SimpleChat.from_raw_data (raw_data : RawEdge) (start_time : Int) :
    Option SimpleChat :=
  raw_data.node.commenter.map fun c =>
    { id := raw_data.node.id
      cursor := raw_data.cursor
      login := c.login
      displayName := c.displayName
      user_id := c.id
      text := String.join raw_data.node.fragments
      offset := calculate_time_difference start_time raw_data.node.createdAt }

/-- The dictionary returned by `get_chat_by_offset` / `get_chat_by_cursor`
(the PageResult of the spec): keys `next`, `chats`, `part_time`. -/
structure FetchResult where
  next : Bool
  chats : List SimpleChat
  part_time : Int
deriving DecidableEq, Repr

/-- Body of `get_chat_by_offset` after the response arrived (lines 137-142):
filter out null-commenter edges, read `hasNextPage`, read
`edges[-1]["node"]["contentOffsetSeconds"]` from the unfiltered edge list
(raising `IndexError` when the edge list is empty), and build the records.
The record list is built from the pre-filtered edges, so `from_raw_data`
never sees a null commenter there; `filterMap` realizes that map. -/
def get_chat_by_offset_parse (resp : RawPage) (start_time : Int) :
    Except PyError FetchResult :=
  let chats := resp.edges.filter fun i => i.node.commenter.isSome
  let next_page := resp.hasNextPage
  match resp.edges.getLast? with
  | none => .error .indexError
  | some lastEdge =>
    .ok { next := next_page
          chats := chats.filterMap fun raw_data =>
            SimpleChat.from_raw_data raw_data start_time
          part_time := lastEdge.node.contentOffsetSeconds }

/-- Body of `get_chat_by_cursor` after the response arrived (lines 148-153);
the source duplicates the offset-variant line for line. -/
def get_chat_by_cursor_parse (resp : RawPage) (start_time : Int) :
    Except PyError FetchResult :=
  let chats := resp.edges.filter fun i => i.node.commenter.isSome
  let next_page := resp.hasNextPage
  match resp.edges.getLast? with
  | none => .error .indexError
  | some lastEdge =>
    .ok { next := next_page
          chats := chats.filterMap fun raw_data =>
            SimpleChat.from_raw_data raw_data start_time
          part_time := lastEdge.node.contentOffsetSeconds }

/-- Whether an exception is `httpx.TimeoutException`, the class selected by
`retry_if_exception_type(httpx.TimeoutException)`. -/
def is_timeout : PyError → Bool
  | .timeoutException => true
  | _ => false

/-- Outcome of a call wrapped by the tenacity `@retry` decorator: a normal
return, an exception propagated unretried, or a `RetryError` after the
attempt budget is exhausted (tenacity default `reraise=False`). -/
inductive CallOutcome (α : Type) where
  | ok (a : α)
  | raised (e : PyError)
  | retryError (e : PyError)
deriving DecidableEq, Repr

/-- The tenacity retry loop: `f` gives the outcome of each attempt (numbered
from 1); a retriable failure is retried while attempts remain, any other
failure propagates at once. -/
def retry_loop {α : Type} (retriable : PyError → Bool)
    (f : Nat → Except PyError α) : Nat → Nat → CallOutcome α
  | attempt, remaining =>
    match f attempt with
    | .ok a => .ok a
    | .error e =>
      if retriable e then
        match remaining with
        | 0 => .retryError e
        | r + 1 => retry_loop retriable f (attempt + 1) r
      else .raised e

/-- `@retry(stop=stop_after_attempt(5), retry=retry_if_exception_type(httpx.TimeoutException))`
as applied to `get_chat_by_offset` / `get_chat_by_cursor`: first attempt is
attempt 1, at most 4 further attempts. -/
def get_chat_call {α : Type} (f : Nat → Except PyError α) : CallOutcome α :=
  retry_loop is_timeout f 1 4

/-- The `for chat in resp["chats"]` body of `get_part_chat` (lines 205-210):
accumulate records until the first one with `offset > stop_seconds`, which
clears the `stop` flag and breaks.  Returns the accumulated page prefix and
the resulting `stop` flag. -/
def consume_page (stop_seconds : Int) : List SimpleChat → List SimpleChat × Bool
  | [] => ([], true)
  | chat :: rest =>
    if stop_seconds < chat.offset then ([], false)
    else
      let r := consume_page stop_seconds rest
      (chat :: r.1, r.2)

/-- Outcome of a retrieval loop run under a fuel bound: a returned record
list, an uncaught exception, or fuel exhausted with the loop still running. -/
inductive RunOutcome where
  | ok (r : List SimpleChat)
  | err (e : PyError)
  | fuelOut
deriving DecidableEq, Repr

/-- The `while stop` loop of `get_part_chat` (lines 200-215) over an abstract
feed (fetch index, cursor ↦ page fetch outcome).  Each iteration fetches,
consumes the page up to the window end, and then — exactly as in the source —
reads `resp["chats"][-1].cursor` whenever `resp["next"]` is true (an
`IndexError` when the filtered record list is empty), continuing only while
the `stop` flag is still set. -/
def runPart (feed : Nat → Option String → Except PyError FetchResult)
    (stop_seconds : Int) :
    Nat → Nat → Option String → List SimpleChat → RunOutcome
  | 0, _, _, _ => .fuelOut
  | fuel + 1, idx, cursor, result =>
    match feed idx cursor with
    | .error e => .err e
    | .ok resp =>
      let consumed := consume_page stop_seconds resp.chats
      let result' := result ++ consumed.1
      if resp.next then
        match resp.chats.getLast? with
        | none => .err .indexError
        | some lastChat =>
          if consumed.2 then
            runPart feed stop_seconds fuel (idx + 1) (some lastChat.cursor) result'
          else .ok result'
      else .ok result'

/-- The `while True` loop of `get_all_chat` (lines 178-189) over an abstract
feed: extend the result with every record of the page, then follow
`resp["chats"][-1].cursor` while `resp["next"]` is true, else break. -/
def runAll (feed : Nat → Option String → Except PyError FetchResult) :
    Nat → Nat → Option String → List SimpleChat → RunOutcome
  | 0, _, _, _ => .fuelOut
  | fuel + 1, idx, cursor, result =>
    match feed idx cursor with
    | .error e => .err e
    | .ok resp =>
      let result' := result ++ resp.chats
      if resp.next then
        match resp.chats.getLast? with
        | none => .err .indexError
        | some lastChat => runAll feed fuel (idx + 1) (some lastChat.cursor) result'
      else .ok result'

/-- Python's case-sensitive substring test `sub in s` on strings. -/
def strIn (sub s : String) : Bool :=
  decide (sub.toList <:+: s.toList)

/-- `search_keywords` (lines 218-225): nested loops appending `chat` once per
`(chat, keyword)` pair whose substring test on display name or text succeeds.
`start_seconds` is used only for log formatting in the source. -/
def search_keywords (chats : List SimpleChat) (keywords : List String)
    (start_seconds : Int) : List SimpleChat :=
  chats.foldl
    (fun results chat =>
      keywords.foldl
        (fun acc keyword =>
          if strIn keyword chat.displayName || strIn keyword chat.text then
            acc ++ [chat]
          else acc)
        results)
    []

/-- `ExportChat` (the ExportRecord of the spec). -/
structure ExportChat where
  displayName : String
  text : String
  offset : Int
deriving DecidableEq, Repr

/-- `ExportChat.from_simple_chat`. -/
def ExportChat.from_simple_chat (raw_data : SimpleChat) (start_seconds : Int) :
    ExportChat :=
  { displayName := raw_data.displayName
    text := raw_data.text
    offset := raw_data.offset - start_seconds }

/-- Ordering used by `final_chats.sort(key=lambda x: x["offset"])`. -/
def exportLE (a b : ExportChat) : Prop := a.offset ≤ b.offset

instance : DecidableRel exportLE := fun a b => Int.decLe a.offset b.offset

instance : IsTotal ExportChat exportLE := ⟨fun a b => Int.le_total a.offset b.offset⟩

instance : IsTrans ExportChat exportLE := ⟨fun _ _ _ h h' => le_trans h h'⟩

/-- The serialized content produced by `export` (lines 230-233): map to
`ExportChat`, deduplicate by structural equality on all three fields (the
Python set of `tuple(d.items())`), and sort ascending by `offset`.  The set's
enumeration order is unspecified; it is modelled by `List.dedup`, which any
stable sort by `offset` then maps to the same multiset. -/
def export_content (chats : List SimpleChat) (start_seconds : Int) :
    List ExportChat :=
  let export_chats := chats.map fun chat => ExportChat.from_simple_chat chat start_seconds
  let final_chats := export_chats.dedup
  List.insertionSort exportLE final_chats

/-- `export` (lines 228-233; named `export_file` here because `export` is a
Lean keyword): writes the content to `export_{uuid.uuid4().hex[:6]}.json`; the
random hex prefix is abstracted as the parameter `uuidHex`.  Returns
(file name, serialized array content). -/
def export_file (uuidHex : String) (chats : List SimpleChat) (start_seconds : Int) :
    String × List ExportChat :=
  ("export_" ++ uuidHex ++ ".json", export_content chats start_seconds)

/-- The export step of `main` (lines 239-240): `if matched_chats:` — export
only when the matched list is non-empty (Python truthiness), otherwise no
artifact at all. -/
def main_export (uuidHex : String) (matched_chats : List SimpleChat)
    (start_seconds : Int) : Option (String × List ExportChat) :=
  if matched_chats.isEmpty then none
  else some (export_file uuidHex matched_chats start_seconds)

/-- `get_sec` (lines 128-131): parse `HH:mm:ss` given the three numeric
fields. -/
def get_sec (h m s : Int) : Int :=
  h * 3600 + m * 60 + s

deriving instance DecidableEq for Except

/-! ## Helper lemmas about the page parse -/

/-- The two duplicated parse bodies are the same function. -/
lemma parse_cursor_eq_offset (resp : RawPage) (start_time : Int) :
    get_chat_by_cursor_parse resp start_time = get_chat_by_offset_parse resp start_time := rfl

/-- `from_raw_data` yields a record exactly when the commenter is non-null. -/
lemma from_raw_data_isSome (raw : RawEdge) (t : Int) :
    (SimpleChat.from_raw_data raw t).isSome = raw.node.commenter.isSome := by
  cases h : raw.node.commenter <;> simp [SimpleChat.from_raw_data, h]

/-- Pre-filtering the null-commenter edges does not change the record list
built by `filterMap from_raw_data`. -/
lemma filterMap_filter_commenter (edges : List RawEdge) (t : Int) :
    ((edges.filter fun i => i.node.commenter.isSome).filterMap fun raw =>
        SimpleChat.from_raw_data raw t)
      = edges.filterMap fun raw => SimpleChat.from_raw_data raw t := by
  induction edges with
  | nil => rfl
  | cons e es ih =>
    by_cases h : e.node.commenter.isSome
    · rw [List.filter_cons_of_pos (by simpa using h), List.filterMap_cons,
        List.filterMap_cons, ih]
    · rw [List.filter_cons_of_neg (by simpa using h), List.filterMap_cons, ih]
      have hn : e.node.commenter = none := Option.not_isSome_iff_eq_none.mp h
      have : SimpleChat.from_raw_data e t = none := by
        simp [SimpleChat.from_raw_data, hn]
      rw [this]

/-- On a list of edges that all have a commenter, `filterMap from_raw_data`
drops nothing. -/
lemma length_filterMap_of_commenter (edges : List RawEdge) (t : Int)
    (h : ∀ e ∈ edges, e.node.commenter.isSome) :
    (edges.filterMap fun raw => SimpleChat.from_raw_data raw t).length
      = edges.length := by
  induction edges with
  | nil => rfl
  | cons e es ih =>
    have he : (SimpleChat.from_raw_data e t).isSome := by
      rw [from_raw_data_isSome]; exact h e (by simp)
    obtain ⟨c, hc⟩ := Option.isSome_iff_exists.mp he
    rw [List.filterMap_cons, hc]
    simp only [List.length_cons]
    rw [ih fun e' he' => h e' (by simp [he'])]

/-- `consume_page` takes exactly the longest prefix of in-window records and
clears the `stop` flag exactly when some record exceeds the bound. -/
lemma consume_page_eq (e : Int) (chats : List SimpleChat) :
    consume_page e chats
      = (chats.takeWhile (fun c => c.offset ≤ e),
          !(chats.any fun c => e < c.offset)) := by
  induction chats with
  | nil => rfl
  | cons c cs ih =>
    by_cases h : e < c.offset
    · simp [consume_page, h, List.takeWhile_cons, not_le.mpr h]
    · simp [consume_page, h, List.takeWhile_cons, not_lt.mp h, ih]

/-! ## Concrete data used by witnesses and counterexamples -/

/-- An edge with a live commenter: absolute timestamp 110, server offset 10. -/
def edgeA : RawEdge :=
  { cursor := "curA"
    node := { id := "m1"
              commenter := some { id := "u1", login := "alice", displayName := "Alice" }
              fragments := ["hi"]
              createdAt := 110
              contentOffsetSeconds := 10 } }

/-- A trailing edge whose commenter is null (deleted account), server offset 99. -/
def edgeB : RawEdge :=
  { cursor := "curB"
    node := { id := "m2"
              commenter := none
              fragments := ["gone"]
              createdAt := 199
              contentOffsetSeconds := 99 } }

/-- A page ending in a null-commenter edge. -/
def pageAB : RawPage := { edges := [edgeA, edgeB], hasNextPage := false }

/-- The record `edgeA` parses to, with anchor timestamp 100. -/
def chatA : SimpleChat :=
  { id := "m1", cursor := "curA", login := "alice", displayName := "Alice"
    user_id := "u1", text := "hi", offset := 10 }

/-- The `FetchResult` of parsing `pageAB` with anchor 100. -/
def resAB : FetchResult := { next := false, chats := [chatA], part_time := 99 }

/-! ## C3: null-commenter filtering -/

/-- C3: a raw entry whose commenter is null never produces a record: both
fetch entry points skip it silently, and the `chats` list of the resulting
page is exactly the non-null-commenter entries converted in order
(`filterMap from_raw_data` keeps order and drops exactly the null ones, as
the first and third conjuncts make explicit). -/
theorem c3_null_commenter_filtering
    (resp : RawPage) (start_time : Int) (res resCur : FetchResult)
    (hoff : get_chat_by_offset_parse resp start_time = .ok res)
    (hcur : get_chat_by_cursor_parse resp start_time = .ok resCur) :
    (∀ raw ∈ resp.edges, raw.node.commenter = none →
        SimpleChat.from_raw_data raw start_time = none) ∧
    res.chats = (resp.edges.filterMap fun raw =>
        SimpleChat.from_raw_data raw start_time) ∧
    res.chats.length
      = (resp.edges.filter fun i => i.node.commenter.isSome).length ∧
    resCur.chats = res.chats := by
  rw [parse_cursor_eq_offset, hoff] at hcur
  have hres : res.chats = (resp.edges.filter fun i => i.node.commenter.isSome).filterMap
      fun raw => SimpleChat.from_raw_data raw start_time := by
    unfold get_chat_by_offset_parse at hoff
    cases hl : resp.edges.getLast? with
    | none => rw [hl] at hoff; cases hoff
    | some lastEdge =>
      rw [hl] at hoff
      simp only [Except.ok.injEq] at hoff
      rw [← hoff]
  refine ⟨?_, ?_, ?_, ?_⟩
  · intro raw _ hnull
    simp [SimpleChat.from_raw_data, hnull]
  · rw [hres, filterMap_filter_commenter]
  · rw [hres]
    exact length_filterMap_of_commenter _ _ fun e he => (List.mem_filter.mp he).2
  · cases hcur
    rfl

/-- C3 witness: the theorem applied to the concrete page `pageAB`, whose
second edge has a null commenter and contributes no record. -/
theorem c3_witness :
    (∀ raw ∈ pageAB.edges, raw.node.commenter = none →
        SimpleChat.from_raw_data raw 100 = none) ∧
    resAB.chats = (pageAB.edges.filterMap fun raw =>
        SimpleChat.from_raw_data raw 100) ∧
    resAB.chats.length
      = (pageAB.edges.filter fun i => i.node.commenter.isSome).length ∧
    resAB.chats = resAB.chats :=
  c3_null_commenter_filtering pageAB 100 resAB resAB (by decide) (by decide)

/-! ## C9: `part_time` versus the last contributed record -/

/-- C9 counterexample: on `pageAB` (anchor 100) the sole contributed record
has offset 10, but `part_time` is 99 — the `contentOffsetSeconds` of the
trailing null-commenter edge, not the offset of the final contributed
CommentRecord. -/
theorem c9_counterexample :
    ∃ res : FetchResult, get_chat_by_offset_parse pageAB 100 = .ok res ∧
      res.chats.map SimpleChat.offset = [10] ∧
      res.part_time = 99 ∧
      res.chats.getLast?.map SimpleChat.offset ≠ some res.part_time := by
  exact ⟨resAB, by decide, by decide, by decide, by decide⟩

/-- C9 (amended): `part_time` is the `contentOffsetSeconds` field of the last
raw edge of the page — null-commenter edges included — which coincides with
the offset of the final contributed record only when the last edge has a
commenter and its `createdAt − anchor` equals its `contentOffsetSeconds`. -/
theorem c9_amended_part_time
    (resp : RawPage) (start_time : Int) (res resCur : FetchResult)
    (lastEdge : RawEdge)
    (hoff : get_chat_by_offset_parse resp start_time = .ok res)
    (hcur : get_chat_by_cursor_parse resp start_time = .ok resCur)
    (hlast : resp.edges.getLast? = some lastEdge) :
    res.part_time = lastEdge.node.contentOffsetSeconds ∧
    resCur.part_time = lastEdge.node.contentOffsetSeconds := by
  rw [parse_cursor_eq_offset, hoff] at hcur
  unfold get_chat_by_offset_parse at hoff
  rw [hlast] at hoff
  simp only [Except.ok.injEq] at hoff
  cases hcur
  rw [← hoff]
  exact ⟨rfl, rfl⟩

/-- C9 witness: the amended theorem applied to `pageAB`, whose last raw edge
is the null-commenter `edgeB` with `contentOffsetSeconds = 99`. -/
theorem c9_amended_witness :
    resAB.part_time = edgeB.node.contentOffsetSeconds ∧
    resAB.part_time = edgeB.node.contentOffsetSeconds :=
  c9_amended_part_time pageAB 100 resAB resAB edgeB (by decide) (by decide) (by decide)

/-! ## C1: window containment -/

/-- Every record the bounded loop returns on success obeys the upper window
bound, given that the records already accumulated do. -/
lemma runPart_ok_upper
    (feed : Nat → Option String → Except PyError FetchResult) (e : Int) :
    ∀ (fuel idx : Nat) (cursor : Option String) (acc r : List SimpleChat),
      (∀ c ∈ acc, c.offset ≤ e) →
      runPart feed e fuel idx cursor acc = .ok r →
      ∀ c ∈ r, c.offset ≤ e := by
  intro fuel
  induction fuel with
  | zero => intro idx cursor acc r _ h; cases h
  | succ n ih =>
    intro idx cursor acc r hacc h
    rw [runPart] at h
    cases hf : feed idx cursor with
    | error err => rw [hf] at h; cases h
    | ok resp =>
      rw [hf] at h
      simp only [consume_page_eq] at h
      have hacc' : ∀ c ∈ acc ++ resp.chats.takeWhile (fun c => c.offset ≤ e),
          c.offset ≤ e := by
        intro c hc
        rcases List.mem_append.mp hc with hc | hc
        · exact hacc c hc
        · simpa using List.mem_takeWhile_imp hc
      cases hnext : resp.next with
      | false =>
        rw [hnext] at h
        simp only [if_neg Bool.false_ne_true] at h
        cases h
        exact hacc'
      | true =>
        rw [hnext] at h
        simp only [if_pos rfl] at h
        cases hl : resp.chats.getLast? with
        | none => rw [hl] at h; cases h
        | some lastChat =>
          rw [hl] at h
          cases hstop : (resp.chats.any fun c => e < c.offset) with
          | false =>
            rw [hstop] at h
            simp only [Bool.not_false, if_pos rfl] at h
            exact ih (idx + 1) (some lastChat.cursor) _ r hacc' h
          | true =>
            rw [hstop] at h
            simp only [Bool.not_true, if_neg Bool.false_ne_true] at h
            cases h
            exact hacc'

/-- A record lying below the window start 10 (but under the end 20). -/
def chatLow : SimpleChat :=
  { id := "m0", cursor := "c0", login := "bob", displayName := "Bob"
    user_id := "u0", text := "hey", offset := 5 }

/-- A single-page feed returning only `chatLow` and no further pages. -/
def feedLow : Nat → Option String → Except PyError FetchResult :=
  fun _ _ => .ok { next := false, chats := [chatLow], part_time := 5 }

/-- C1 counterexample: for the window `[10, 20]` the bounded loop returns a
record with offset 5 < 10 — `get_part_chat` never enforces the lower window
bound (the first by-offset page may carry earlier records and they are all
accumulated). -/
theorem c1_counterexample :
    runPart feedLow 20 1 0 none [] = .ok [chatLow] ∧ ¬ (10 : Int) ≤ chatLow.offset := by
  exact ⟨by decide, by decide⟩

/-- C1 (amended): every record accumulated and returned by the bounded
retriever satisfies `offsetSeconds ≤ e`, and no record with
`offsetSeconds > e` is ever included; the lower bound `s ≤ offsetSeconds`
is not enforced by the code. -/
theorem c1_amended_upper_containment
    (feed : Nat → Option String → Except PyError FetchResult) (e : Int)
    (fuel : Nat) (r : List SimpleChat)
    (h : runPart feed e fuel 0 none [] = .ok r) :
    ∀ c ∈ r, c.offset ≤ e :=
  runPart_ok_upper feed e fuel 0 none [] r (by intro c hc; cases hc) h

/-- C1 witness: the amended theorem applied to the concrete run of `feedLow`
with window end 20 and its returned record `chatLow`. -/
theorem c1_amended_witness : chatLow.offset ≤ (20 : Int) :=
  c1_amended_upper_containment feedLow 20 1 [chatLow] (by decide) chatLow (by simp)

/-! ## C2: first exceeding record terminates retrieval -/

/-- C2: when some record of the fetched page exceeds the window end, the loop
returns immediately: the accumulated result is extended with exactly the
records before the first exceeding one (`takeWhile`, all of them ≤ e), that
record and everything after it in the page is discarded, and the outcome is
the same for every remaining fuel and for every feed agreeing on this one
fetch — no further page is ever requested — whatever the page's `next`
(hasMore) flag is. -/
theorem c2_exceeding_record_stops
    (feed : Nat → Option String → Except PyError FetchResult) (e : Int)
    (fuel idx : Nat) (cursor : Option String) (acc : List SimpleChat)
    (resp : FetchResult)
    (hf : feed idx cursor = .ok resp)
    (hex : (resp.chats.any fun c => e < c.offset) = true) :
    runPart feed e (fuel + 1) idx cursor acc
      = .ok (acc ++ resp.chats.takeWhile fun c => c.offset ≤ e) := by
  have hne : resp.chats ≠ [] := by
    rcases List.any_eq_true.mp hex with ⟨c, hc, _⟩
    exact List.ne_nil_of_mem hc
  obtain ⟨lastChat, hl⟩ := Option.isSome_iff_exists.mp
    (List.getLast?_isSome.mpr hne)
  rw [runPart, hf]
  simp only [consume_page_eq, hex, Bool.not_true]
  cases hnext : resp.next with
  | false => simp
  | true => rw [hl]; simp

/-- A record past the window end 20. -/
def chatHigh : SimpleChat :=
  { id := "m9", cursor := "c9", login := "eve", displayName := "Eve"
    user_id := "u9", text := "late", offset := 25 }

/-- A page containing an exceeding record while still advertising more pages. -/
def respHigh : FetchResult := { next := true, chats := [chatLow, chatHigh], part_time := 25 }

/-- A feed that always answers with `respHigh`. -/
def feedHigh : Nat → Option String → Except PyError FetchResult :=
  fun _ _ => .ok respHigh

/-- C2 witness: with window end 20, the page `[chatLow (5), chatHigh (25)]`
and `hasNextPage = true`, the loop returns `[chatLow]` at once. -/
theorem c2_witness : runPart feedHigh 20 3 0 none [] = .ok [chatLow] :=
  (c2_exceeding_record_stops feedHigh 20 2 0 none [] respHigh rfl (by decide)).trans
    (by decide)

/-! ## C8: termination of the retrieval loops -/

/-- A page-fetch outcome that stops the bounded loop on sight: a raised
exception, a page with no further pages, or a page carrying a record past the
window end. -/
def partTerminal (e : Int) : Except PyError FetchResult → Prop
  | .error _ => True
  | .ok resp => resp.next = false ∨ (resp.chats.any fun c => e < c.offset) = true

/-- A page-fetch outcome that stops the unbounded loop on sight: a raised
exception or a page with no further pages. -/
def allTerminal : Except PyError FetchResult → Prop
  | .error _ => True
  | .ok _resp => _resp.next = false

/-- If the fetch at index `idx + k` is terminal whatever cursor it receives,
the bounded loop stops (returns or raises) within `k + 1` fetches. -/
lemma runPart_terminates
    (e : Int) :
    ∀ (k : Nat) (feed : Nat → Option String → Except PyError FetchResult)
      (idx : Nat) (cursor : Option String) (acc : List SimpleChat),
      (∀ cur, partTerminal e (feed (idx + k) cur)) →
      runPart feed e (k + 1) idx cursor acc ≠ .fuelOut := by
  intro k
  induction k with
  | zero =>
    intro feed idx cursor acc hterm
    have ht := hterm cursor
    rw [runPart]
    cases hf : feed idx cursor with
    | error err => intro h; cases h
    | ok resp =>
      rw [Nat.add_zero, hf] at ht
      simp only [consume_page_eq]
      cases hnext : resp.next with
      | false => intro h; cases h
      | true =>
        simp only [if_pos rfl]
        have hex : (resp.chats.any fun c => e < c.offset) = true := by
          rcases ht with ht | ht
          · rw [hnext] at ht; cases ht
          · exact ht
        have hne : resp.chats ≠ [] := by
          rcases List.any_eq_true.mp hex with ⟨c, hc, _⟩
          exact List.ne_nil_of_mem hc
        obtain ⟨lastChat, hl⟩ := Option.isSome_iff_exists.mp
          (List.getLast?_isSome.mpr hne)
        rw [hl, hex]
        simp only [Bool.not_true, if_neg Bool.false_ne_true]
        intro h; cases h
  | succ n ih =>
    intro feed idx cursor acc hterm
    rw [runPart]
    cases hf : feed idx cursor with
    | error err => intro h; cases h
    | ok resp =>
      simp only [consume_page_eq]
      cases hnext : resp.next with
      | false => intro h; cases h
      | true =>
        simp only [if_pos rfl]
        cases hl : resp.chats.getLast? with
        | none => intro h; cases h
        | some lastChat =>
          cases hstop : (resp.chats.any fun c => e < c.offset) with
          | true =>
            simp only [Bool.not_true, if_neg Bool.false_ne_true]
            intro h; cases h
          | false =>
            simp only [Bool.not_false, if_pos rfl]
            exact ih feed (idx + 1) (some lastChat.cursor) _
              (by intro cur; have := hterm cur; rwa [show idx + 1 + n = idx + (n + 1) by omega])

/-- If the fetch at index `idx + k` is terminal whatever cursor it receives,
the unbounded loop stops (returns or raises) within `k + 1` fetches. -/
lemma runAll_terminates :
    ∀ (k : Nat) (feed : Nat → Option String → Except PyError FetchResult)
      (idx : Nat) (cursor : Option String) (acc : List SimpleChat),
      (∀ cur, allTerminal (feed (idx + k) cur)) →
      runAll feed (k + 1) idx cursor acc ≠ .fuelOut := by
  intro k
  induction k with
  | zero =>
    intro feed idx cursor acc hterm
    have ht := hterm cursor
    rw [runAll]
    cases hf : feed idx cursor with
    | error err => intro h; cases h
    | ok resp =>
      rw [Nat.add_zero, hf] at ht
      have hnext : resp.next = false := ht
      dsimp only
      rw [hnext]
      simp only [Bool.false_eq_true, if_false]
      intro h; cases h
  | succ n ih =>
    intro feed idx cursor acc hterm
    rw [runAll]
    cases hf : feed idx cursor with
    | error err => intro h; cases h
    | ok resp =>
      dsimp only
      cases hnext : resp.next with
      | false =>
        simp only [Bool.false_eq_true, if_false]
        intro h; cases h
      | true =>
        simp only [if_pos rfl]
        cases hl : resp.chats.getLast? with
        | none => intro h; cases h
        | some lastChat =>
          exact ih feed (idx + 1) (some lastChat.cursor) _
            (by intro cur; have := hterm cur; rwa [show idx + 1 + n = idx + (n + 1) by omega])

/-- A record far past any small window end, on a page always advertising more. -/
def chatBig : SimpleChat :=
  { id := "mB", cursor := "cB", login := "zed", displayName := "Zed"
    user_id := "uB", text := "spam", offset := 1000 }

/-- The page `feedBig` always serves: `hasNextPage = true`, one record with
offset 1000. -/
def respBig : FetchResult := { next := true, chats := [chatBig], part_time := 1000 }

/-- A feed whose every fetch yields `respBig`. -/
def feedBig : Nat → Option String → Except PyError FetchResult :=
  fun _ _ => .ok respBig

/-- C8 counterexample: for the feed `feedBig`, every fetch yields a record
whose offset (1000) exceeds the window end 10 — so the feed satisfies the
claim's hypothesis — yet the unbounded loop `get_all_chat` never terminates:
it runs out of any fuel bound, because only `hasNextPage = false` can stop it
and that flag is always true. -/
theorem c8_counterexample :
    (∀ (n : Nat) (cur : Option String),
        feedBig n cur = .ok respBig ∧
        (respBig.chats.any fun c => (10 : Int) < c.offset) = true) ∧
    (∀ (fuel idx : Nat) (cursor : Option String) (acc : List SimpleChat),
        runAll feedBig fuel idx cursor acc = .fuelOut) := by
  constructor
  · exact fun n cur => ⟨rfl, by decide⟩
  · intro fuel
    induction fuel with
    | zero => intro idx cursor acc; rfl
    | succ n ih =>
      intro idx cursor acc
      rw [runAll]
      show runAll feedBig n (idx + 1) (some chatBig.cursor) (acc ++ respBig.chats)
          = RunOutcome.fuelOut
      exact ih (idx + 1) (some chatBig.cursor) _

/-- C8 (amended): the bounded loop `get_part_chat` stops within finitely many
fetches as soon as some fetch along the run either fails, reports no further
pages, or yields a record past the window end; the unbounded loop
`get_all_chat` stops within finitely many fetches as soon as some fetch
either fails or reports no further pages (an exceeding record does not stop
it, as the counterexample shows). -/
theorem c8_amended_termination
    (feedP feedA : Nat → Option String → Except PyError FetchResult)
    (e : Int) (k m : Nat)
    (hp : ∀ cur, partTerminal e (feedP k cur))
    (ha : ∀ cur, allTerminal (feedA m cur)) :
    runPart feedP e (k + 1) 0 none [] ≠ .fuelOut ∧
    runAll feedA (m + 1) 0 none [] ≠ .fuelOut :=
  ⟨runPart_terminates e k feedP 0 none [] (by simpa using hp),
   runAll_terminates m feedA 0 none [] (by simpa using ha)⟩

/-- A feed whose very first page reports no further pages. -/
def feedDone : Nat → Option String → Except PyError FetchResult :=
  fun _ _ => .ok { next := false, chats := [chatLow], part_time := 5 }

/-- C8 witness: both loops run on `feedDone` (terminal at the first fetch,
`k = m = 0`) and neither runs out of fuel. -/
theorem c8_amended_witness :
    runPart feedDone 20 1 0 none [] ≠ .fuelOut ∧
    runAll feedDone 1 0 none [] ≠ .fuelOut :=
  c8_amended_termination feedDone feedDone 20 0 0
    (fun _cur => Or.inl rfl) (fun _cur => rfl)

/-! ## C10: crashes on empty filtered pages -/

/-- A response page with an empty edge list but `hasNextPage = true`. -/
def pageEmpty : RawPage := { edges := [], hasNextPage := true }

/-- A response page whose only edge has a null commenter, `hasNextPage = true`. -/
def pageNull : RawPage := { edges := [edgeB], hasNextPage := true }

/-- A feed always answering with the parse of `pageNull`. -/
def feedNull : Nat → Option String → Except PyError FetchResult :=
  fun _ _ => get_chat_by_offset_parse pageNull 100

/-- C10: on an empty edge list both fetch entry points raise `IndexError`
when reading the trailing offset `edges[-1]`; on a page whose only edge has a
null commenter (so the filtered record list is empty) and which reports more
pages, both retrieval loops raise `IndexError` when reading the continuation
cursor `resp["chats"][-1]` instead of continuing pagination. -/
theorem c10_empty_list_indexing_fails :
    get_chat_by_offset_parse pageEmpty 100 = .error .indexError ∧
    get_chat_by_cursor_parse pageEmpty 100 = .error .indexError ∧
    (∃ resNull : FetchResult, get_chat_by_offset_parse pageNull 100 = .ok resNull ∧
        resNull.next = true ∧ resNull.chats = []) ∧
    runPart feedNull 100 5 0 none [] = .err .indexError ∧
    runAll feedNull 5 0 none [] = .err .indexError := by
  exact ⟨by decide, by decide, ⟨⟨true, [], 99⟩, by decide, rfl, rfl⟩, by decide, by decide⟩

/-! ## C4: retry policy of the page-fetch layer -/

/-- If the attempts from `attempt` up to (but excluding) `j` all time out and
attempt `j` (within the budget) succeeds, the retry loop returns its value. -/
lemma retry_loop_ok {α : Type} (f : Nat → Except PyError α) :
    ∀ (remaining attempt j : Nat) (a : α),
      attempt ≤ j → j ≤ attempt + remaining →
      (∀ k, attempt ≤ k → k < j → f k = .error .timeoutException) →
      f j = .ok a →
      retry_loop is_timeout f attempt remaining = .ok a := by
  intro remaining
  induction remaining with
  | zero =>
    intro attempt j a h1 h2 _ hj
    have : attempt = j := by omega
    subst this
    rw [retry_loop, hj]
  | succ r ih =>
    intro attempt j a h1 h2 hto hj
    by_cases hje : attempt = j
    · subst hje
      rw [retry_loop, hj]
    · have hlt : attempt < j := by omega
      have hfa : f attempt = .error .timeoutException := hto attempt le_rfl hlt
      rw [retry_loop, hfa]
      simp only [is_timeout, if_pos rfl]
      exact ih (attempt + 1) j a (by omega) (by omega)
        (fun k hk1 hk2 => hto k (by omega) hk2) hj

/-- If the attempts before `j` all time out and attempt `j` (within the
budget) raises a non-timeout error, the retry loop propagates that error. -/
lemma retry_loop_raised {α : Type} (f : Nat → Except PyError α) :
    ∀ (remaining attempt j : Nat) (e : PyError),
      attempt ≤ j → j ≤ attempt + remaining →
      (∀ k, attempt ≤ k → k < j → f k = .error .timeoutException) →
      f j = .error e → is_timeout e = false →
      retry_loop is_timeout f attempt remaining = .raised e := by
  intro remaining
  induction remaining with
  | zero =>
    intro attempt j e h1 h2 _ hj hnt
    have : attempt = j := by omega
    subst this
    rw [retry_loop, hj]
    dsimp only
    rw [hnt]
    simp
  | succ r ih =>
    intro attempt j e h1 h2 hto hj hnt
    by_cases hje : attempt = j
    · subst hje
      rw [retry_loop, hj]
      dsimp only
      rw [hnt]
      simp
    · have hlt : attempt < j := by omega
      have hfa : f attempt = .error .timeoutException := hto attempt le_rfl hlt
      rw [retry_loop, hfa]
      simp only [is_timeout, if_pos rfl]
      exact ih (attempt + 1) j e (by omega) (by omega)
        (fun k hk1 hk2 => hto k (by omega) hk2) hj hnt

/-- If every attempt in the budget times out, the retry loop ends in
`RetryError` once the budget is exhausted. -/
lemma retry_loop_exhausted {α : Type} (f : Nat → Except PyError α) :
    ∀ (remaining attempt : Nat),
      (∀ k, attempt ≤ k → k ≤ attempt + remaining → f k = .error .timeoutException) →
      retry_loop is_timeout f attempt remaining = .retryError .timeoutException := by
  intro remaining
  induction remaining with
  | zero =>
    intro attempt hto
    rw [retry_loop, hto attempt le_rfl (by omega)]
    dsimp only
    simp [is_timeout]
  | succ r ih =>
    intro attempt hto
    rw [retry_loop, hto attempt le_rfl (by omega)]
    dsimp only
    simp only [is_timeout, if_pos rfl]
    exact ih (attempt + 1) (fun k hk1 hk2 => hto k (by omega) (by omega))

/-- C4: the decorated page fetch retries only timeout-class failures, up to 5
attempts in total (the first included): a run of timeouts followed by a
success within the budget returns normally; a non-timeout failure at any
attempt — the first in particular — propagates at once with no further
attempt; and five straight timeouts escalate to the fatal `RetryError`. -/
theorem c4_retry_policy {α : Type} (f : Nat → Except PyError α) :
    (∀ j e, 1 ≤ j → j ≤ 5 →
        (∀ k, 1 ≤ k → k < j → f k = .error .timeoutException) →
        f j = .error e → is_timeout e = false →
        get_chat_call f = .raised e) ∧
    (∀ j a, 1 ≤ j → j ≤ 5 →
        (∀ k, 1 ≤ k → k < j → f k = .error .timeoutException) →
        f j = .ok a →
        get_chat_call f = .ok a) ∧
    ((∀ k, 1 ≤ k → k ≤ 5 → f k = .error .timeoutException) →
        get_chat_call f = .retryError .timeoutException) := by
  refine ⟨?_, ?_, ?_⟩
  · intro j e h1 h5 hto hj hnt
    exact retry_loop_raised f 4 1 j e h1 (by omega) hto hj hnt
  · intro j a h1 h5 hto hj
    exact retry_loop_ok f 4 1 j a h1 (by omega) hto hj
  · intro hto
    exact retry_loop_exhausted f 4 1 fun k hk1 hk2 => hto k hk1 (by omega)

/-- The fetch-attempt trace used by the C4 witness: attempt 1 times out,
attempt 2 returns the parse of `pageAB`. -/
def attemptsW : Nat → Except PyError FetchResult :=
  fun n => if n = 1 then .error .timeoutException else .ok resAB

/-- C4 witness: one timeout followed by a success — the decorated call
returns the page. -/
theorem c4_witness : get_chat_call attemptsW = .ok resAB :=
  (c4_retry_policy attemptsW).2.1 2 resAB (by omega) (by omega)
    (fun k hk1 hk2 => by
      have : k = 1 := by omega
      subst this
      rfl)
    rfl

/-! ## C7: keyword matching -/

/-- The inner `for keyword in keywords` loop appends `chat` once per matching
keyword, in keyword order. -/
lemma keywords_foldl_eq (chat : SimpleChat) (keywords : List String) :
    ∀ acc : List SimpleChat,
      keywords.foldl
          (fun acc keyword =>
            if strIn keyword chat.displayName || strIn keyword chat.text then
              acc ++ [chat]
            else acc)
          acc
        = acc ++ ((keywords.filter fun keyword =>
            strIn keyword chat.displayName || strIn keyword chat.text).map
              fun _ => chat) := by
  induction keywords with
  | nil => intro acc; simp
  | cons k ks ih =>
    intro acc
    by_cases h : (strIn k chat.displayName || strIn k chat.text) = true
    · rw [List.foldl_cons, if_pos h, ih]
      simp [List.filter_cons, h]
    · have hb : (strIn k chat.displayName || strIn k chat.text) = false := by
        simpa using h
      rw [List.foldl_cons, if_neg h, ih]
      simp [List.filter_cons, hb]

/-- C7: `search_keywords` returns, in record order, each record repeated once
per keyword whose case-sensitive substring test succeeds on the display name
or the text — `k` matching keywords give `k` copies, one keyword matching via
both fields gives one copy, and a record matching nothing is absent. -/
theorem c7_keyword_matching
    (chats : List SimpleChat) (keywords : List String) (start_seconds : Int) :
    search_keywords chats keywords start_seconds
      = chats.flatMap fun chat =>
          (keywords.filter fun keyword =>
            strIn keyword chat.displayName || strIn keyword chat.text).map
              fun _ => chat := by
  have step : ∀ (cs : List SimpleChat) (init : List SimpleChat),
      cs.foldl
          (fun results chat =>
            keywords.foldl
              (fun acc keyword =>
                if strIn keyword chat.displayName || strIn keyword chat.text then
                  acc ++ [chat]
                else acc)
              results)
          init
        = init ++ cs.flatMap fun chat =>
            (keywords.filter fun keyword =>
              strIn keyword chat.displayName || strIn keyword chat.text).map
                fun _ => chat := by
    intro cs
    induction cs with
    | nil => intro init; simp
    | cons c cs ih =>
      intro init
      rw [List.foldl_cons, keywords_foldl_eq, ih, List.flatMap_cons,
        List.append_assoc]
  unfold search_keywords
  rw [step]
  simp

/-! ## C5 and C6: export -/

/-- C5: for a non-empty matched list `main` produces the export artifact and
for an empty one nothing at all; the artifact content is each record mapped
to `{displayName, text, offset − start}`, deduplicated by structural equality
on all three fields (no duplicates remain, and membership is exactly that of
the mapped list), and sorted ascending by the window-relative offset. -/
theorem c5_export_pipeline (uuidHex : String) (chats : List SimpleChat)
    (start_seconds : Int) :
    (∀ chat, ExportChat.from_simple_chat chat start_seconds
        = { displayName := chat.displayName, text := chat.text
            offset := chat.offset - start_seconds }) ∧
    (chats = [] → main_export uuidHex chats start_seconds = none) ∧
    (chats ≠ [] → main_export uuidHex chats start_seconds
        = some (export_file uuidHex chats start_seconds)) ∧
    (∀ x, x ∈ export_content chats start_seconds ↔
        x ∈ chats.map fun chat => ExportChat.from_simple_chat chat start_seconds) ∧
    (export_content chats start_seconds).Nodup ∧
    (export_content chats start_seconds).Sorted exportLE := by
  refine ⟨fun chat => rfl, ?_, ?_, ?_, ?_, ?_⟩
  · intro h
    subst h
    rfl
  · intro h
    rw [main_export, if_neg (by simpa using h)]
  · intro x
    unfold export_content
    rw [(List.perm_insertionSort exportLE _).mem_iff, List.mem_dedup]
  · exact (List.perm_insertionSort exportLE _).nodup_iff.mpr (List.nodup_dedup _)
  · exact List.sorted_insertionSort exportLE _

/-- A matched record with absolute offset 90 (window start 60 exports it at
window-relative offset 30). -/
def chat90 : SimpleChat :=
  { id := "m90", cursor := "c90", login := "ann", displayName := "Ann"
    user_id := "u90", text := "hello world", offset := 90 }

/-- C5 witness: a non-empty matched set does produce the artifact. -/
theorem c5_witness :
    main_export "abc123" [chat90] 60 = some (export_file "abc123" [chat90] 60) :=
  (c5_export_pipeline "abc123" [chat90] 60).2.2.1 (by simp)

/-- C6: re-running export on the same matched list and window start yields
the identical serialized, sorted content — only the randomly generated
artifact identifier differs between the two runs. -/
theorem c6_export_idempotent (uuid1 uuid2 : String) (chats : List SimpleChat)
    (start_seconds : Int) :
    (export_file uuid1 chats start_seconds).2
        = (export_file uuid2 chats start_seconds).2 ∧
    (main_export uuid1 chats start_seconds).map Prod.snd
        = (main_export uuid2 chats start_seconds).map Prod.snd := by
  refine ⟨rfl, ?_⟩
  by_cases h : chats.isEmpty
  · rw [main_export, if_pos h, main_export, if_pos h]
  · rw [main_export, if_neg h, main_export, if_neg h]
    rfl
